import Mathlib

/-!
Verification of the telemetry-frame extraction tool `process_srt.py`.

The Python source is shallowly embedded below.  Python floats are modelled
as exact rationals (`ℚ`); every numeric literal appearing in the concrete
inputs used here is exactly representable as a binary double, so the
rational model agrees with the float semantics at those points.  Fallible
Python operations (`dict[...]` lookup, `float(...)`, `int(...)`, `%` by
zero) are modelled with `Except`/`Option` values carrying the Python
exception that would be raised.
-/

namespace ProcessSrt

/-! ## Character classes used by the regular expression `(\w+):\s([^\s\[\]]+)`
and by `str.strip` (ASCII view of Python's `\w` and `\s`). -/

def wordChar (c : Char) : Bool := c.isAlphanum || c == '_'

def wsChar (c : Char) : Bool :=
  c == ' ' || c == '\t' || c == '\n' || c == '\r' || c == '\x0b' || c == '\x0c'

def valChar (c : Char) : Bool := !(wsChar c) && c != '[' && c != ']'

def trimWs (cs : List Char) : List Char :=
  ((cs.dropWhile wsChar).reverse.dropWhile wsChar).reverse

/-! ## `re.findall(r'(\w+):\s([^\s\[\]]+)', line)`

`matchKV` attempts the pattern at the head of the character list; since the
character classes of the pattern are pairwise disjoint, the greedy matcher
without backtracking coincides with Python's leftmost-greedy semantics. -/

def matchKV (cs : List Char) : Option (String × String × List Char) :=
  let key := cs.takeWhile wordChar
  if key.isEmpty then none
  else
    match cs.dropWhile wordChar with
    | ':' :: c :: rest =>
        if wsChar c then
          let v := rest.takeWhile valChar
          if v.isEmpty then none
          else some (⟨key⟩, ⟨v⟩, rest.dropWhile valChar)
        else none
    | _ => none

def findKVsAux : ℕ → List Char → List (String × String)
  | 0, _ => []
  | _, [] => []
  | n + 1, c :: rest =>
      match matchKV (c :: rest) with
      | some (k, v, rem) => (k, v) :: findKVsAux n rem
      | none => findKVsAux n rest

/-- Embedding of `read_line_attributes` (source lines 102-109): the returned
association list records the matches in order; dictionary lookup takes the
last binding for a key, matching `ret[key] = val` overwriting semantics. -/
def read_line_attributes (line : String) : List (String × String) :=
  findKVsAux line.data.length line.data

/-- Python `dict[key]` on the dictionary built by `read_line_attributes`:
the last occurrence of a duplicated key wins. -/
def dictGet (attrs : List (String × String)) (key : String) : Option String :=
  ((attrs.filter (fun p => p.1 == key)).getLast?).map (fun p => p.2)

/-! ## Numeric conversions `float(...)` and `int(...)` -/

def digitsToNat (cs : List Char) : ℕ :=
  cs.foldl (fun a c => 10 * a + (c.toNat - 48)) 0

/-- Model of Python `float(s)` on the decimal-literal subset (optional sign,
digits with optional fraction, optional exponent).  The special forms
`inf`/`nan` are outside the subset and rejected; telemetry values are plain
decimals.  The result is the exact rational value of the literal
`sign * (intpart.fracpart) * 10^exp`, assembled as
`mkRat (sign * digits(intpart ++ fracpart) * 10^max(exp,0)) (10^(len(fracpart) + max(-exp,0)))`. -/
def parseFloat (s : String) : Option ℚ :=
  let cs := trimWs s.data
  let neg : Bool := match cs with
    | '-' :: _ => true
    | _ => false
  let cs1 : List Char := match cs with
    | '+' :: r => r
    | '-' :: r => r
    | r => r
  let ip := cs1.takeWhile Char.isDigit
  let rest1 := cs1.dropWhile Char.isDigit
  let fp : List Char := match rest1 with
    | '.' :: r => r.takeWhile Char.isDigit
    | _ => []
  let rest2 : List Char := match rest1 with
    | '.' :: r => r.dropWhile Char.isDigit
    | r => r
  if ip.isEmpty && fp.isEmpty then none
  else
    let n0 : ℤ := (digitsToNat (ip ++ fp) : ℤ)
    let n1 : ℤ := if neg then -n0 else n0
    match rest2 with
    | [] => some (mkRat n1 (10 ^ fp.length))
    | e :: r =>
        if e == 'e' || e == 'E' then
          let eneg : Bool := match r with
            | '-' :: _ => true
            | _ => false
          let r2 : List Char := match r with
            | '+' :: rr => rr
            | '-' :: rr => rr
            | rr => rr
          let ed := r2.takeWhile Char.isDigit
          if ed.isEmpty || !(r2.dropWhile Char.isDigit).isEmpty then none
          else
            if eneg then some (mkRat n1 (10 ^ (fp.length + digitsToNat ed)))
            else some (mkRat (n1 * (10 : ℤ) ^ digitsToNat ed) (10 ^ fp.length))
        else none

/-- Valid digit run of a Python integer literal: underscores may appear only
between digits (`int("1_0") = 10`, `int("1__0")`/`int("1_")` raise). -/
def intDigits : List Char → Option (List Char)
  | [] => some []
  | '_' :: c :: r => if c.isDigit then intDigits (c :: r) else none
  | c :: r => if c.isDigit then (intDigits r).map (fun ds => c :: ds) else none

/-- Model of Python `int(s)` for a string argument: strips whitespace, takes
an optional sign, and requires the remainder to be a base-10 integer
literal.  A fractional literal such as `"0.5"` is rejected (`ValueError`),
not truncated. -/
def pyIntOfString (s : String) : Option ℤ :=
  let cs := trimWs s.data
  let sgn : ℤ := match cs with
    | '-' :: _ => -1
    | _ => 1
  let cs2 : List Char := match cs with
    | '+' :: r => r
    | '-' :: r => r
    | r => r
  match cs2 with
  | [] => none
  | c :: _ =>
      if !c.isDigit then none
      else
        match intDigits cs2 with
        | none => none
        | some ds => some (sgn * (digitsToNat ds : ℤ))

/-- Python `int(x)` applied to a real value truncates toward zero. -/
def pyInt (q : ℚ) : ℤ := if 0 ≤ q then ⌊q⌋ else -⌊-q⌋

/-! ## Data model -/

/-- Embedding of the `ImageData` dataclass (source lines 13-19). -/
structure ImageData where
  lat : ℚ
  long : ℚ
  abs_alt : ℚ
  focal_len : ℚ
  frame_num : ℕ
deriving DecidableEq

/-- Python exceptions that the embedded fragments can raise. -/
inductive PyError where
  | keyError (key : String)
  | valueError (val : String)
  | zeroDivisionError
deriving DecidableEq

instance {ε α : Type} [DecidableEq ε] [DecidableEq α] : DecidableEq (Except ε α) := fun x y =>
  match x, y with
  | .ok a, .ok b =>
      if h : a = b then .isTrue (by rw [h]) else .isFalse (by intro hc; cases hc; exact h rfl)
  | .error a, .error b =>
      if h : a = b then .isTrue (by rw [h]) else .isFalse (by intro hc; cases hc; exact h rfl)
  | .ok _, .error _ => .isFalse (by intro hc; cases hc)
  | .error _, .ok _ => .isFalse (by intro hc; cases hc)

/-- `float(attrs[key])`: raises `KeyError` when the key is absent, then
`ValueError` when the value does not parse as a float. -/
def lookupFloat (attrs : List (String × String)) (key : String) : Except PyError ℚ :=
  match dictGet attrs key with
  | none => .error (.keyError key)
  | some v =>
      match parseFloat v with
      | none => .error (.valueError v)
      | some q => .ok q

/-! ## `get_meta_info` (source lines 45-99)

One loop iteration of the Python `while True` reads one line (the attribute
line of the current 6-line group), evaluates

  `count % inc_frames == 0 and (float(attrs['latitude']) != 0.0 or
   float(attrs['longitude']) != 0.0)`

with Python's left-to-right short-circuit order, on success builds the
`ImageData` (keyword arguments evaluated in the written order `long`, `lat`,
`abs_alt`, `focal_len`), and then skips five lines. -/

def blockStep (inc : ℤ) (count : ℕ) (attrs : List (String × String)) :
    Except PyError (List ImageData) :=
  if inc = 0 then .error .zeroDivisionError
  else if (count : ℤ) % inc = 0 then do
    let la ← lookupFloat attrs "latitude"
    let keep ←
      if la ≠ 0 then pure true
      else do
        let lo ← lookupFloat attrs "longitude"
        pure (decide (lo ≠ 0))
    if keep then do
      let lo ← lookupFloat attrs "longitude"
      let la2 ← lookupFloat attrs "latitude"
      let al ← lookupFloat attrs "abs_alt"
      let fo ← lookupFloat attrs "focal_len"
      pure [⟨la2, lo, al, fo, count⟩]
    else pure []
  else pure []

/-- The `while True` loop: `readline` returning the empty string (end of
file) ends iteration; each iteration consumes the head line and then five
further lines (harmlessly fewer at the end of the file, exactly as the
Python `readline` calls return `''` without error there). -/
def getMetaLoop (inc : ℤ) : List String → ℕ → Except PyError (List ImageData)
  | [], _ => .ok []
  | line :: _ :: _ :: _ :: _ :: _ :: rest, count => do
      let s ← blockStep inc count (read_line_attributes line)
      let r ← getMetaLoop inc rest (count + 1)
      .ok (s ++ r)
  | [line], count => do
      let s ← blockStep inc count (read_line_attributes line)
      .ok s
  | [line, _], count => do
      let s ← blockStep inc count (read_line_attributes line)
      .ok s
  | [line, _, _], count => do
      let s ← blockStep inc count (read_line_attributes line)
      .ok s
  | [line, _, _, _], count => do
      let s ← blockStep inc count (read_line_attributes line)
      .ok s
  | [line, _, _, _, _], count => do
      let s ← blockStep inc count (read_line_attributes line)
      .ok s

/-- Embedding of `get_meta_info`: the file is its list of physical lines
(trailing newlines stripped; `readline` returns `''` only at end of file,
so a blank interior line does not end the loop).  The four initial
`readline()` calls discard the first four lines. -/
def get_meta_info (lines : List String) (inc_frames : ℤ) :
    Except PyError (List ImageData) :=
  getMetaLoop inc_frames (lines.drop 4) 0

/-! ## `calculate_frame_increment` (source lines 35-42)

The frame rate is produced by the video collaborator; the embedding takes
it as a parameter.  The source computes `int(framerate * seconds)`. -/

def calculate_frame_increment (seconds framerate : ℚ) : ℤ :=
  pyInt (framerate * seconds)

/-! ## `decimal_degrees_to_minutes_seconds` (source lines 156-169) -/

/-- Python `divmod(a, b)` on reals: `(a // b, a % b)` with floor division. -/
def divmodF (a b : ℚ) : ℚ × ℚ := ((⌊a / b⌋ : ℤ), a - b * (⌊a / b⌋ : ℤ))

def decimal_degrees_to_minutes_seconds (decimal : ℚ) : ℚ × ℚ × ℚ :=
  let p1 := divmodF (|decimal| * 3600) 60
  let p2 := divmodF p1.1 60
  (p2.1, p2.2, p1.2)

/-! ## `save_images` (source lines 112-153), pure parts

Video decoding, JPEG encoding and EXIF serialization are black boxes; the
embedded parts are the output file name computation and the metadata record
attached to each frame. -/

def OUTPUT_DIR : String := "./out/"

/-- Python `str.split(sep)` for a one-character separator (keeps empty
pieces, never returns an empty list). -/
def splitChar (sep : Char) : List Char → List (List Char)
  | [] => [[]]
  | c :: rest =>
      let acc := splitChar sep rest
      if c = sep then [] :: acc
      else
        match acc with
        | [] => [[c]]
        | h :: t => (c :: h) :: t

/-- `OUTPUT_DIR + video_path.split('/')[-1].split('.')[0] + '_'` followed by
`str(frame.frame_num) + '.jpg'` (source lines 120 and 130). -/
def savedName (video_path : String) (frame_num : ℕ) : String :=
  OUTPUT_DIR
    ++ (⟨((splitChar '.' ((splitChar '/' video_path.data).getLastD [])).headD [])⟩ : String)
    ++ "_" ++ Nat.repr frame_num ++ ".jpg"

/-- Formalization of the spec's words `the video's base filename with its
extension stripped` under the conventional reading (everything from the
last dot of the name onward is the extension, as in `os.path.splitext`);
compared against the source's first-dot behaviour in the naming claims. -/
def stripExtensionSpec (s : String) : String :=
  if '.' ∈ s.data then ⟨((s.data.reverse.dropWhile (fun c => c != '.')).drop 1).reverse⟩
  else s

inductive GpsAltitudeRef where
  | aboveSeaLevel
  | belowSeaLevel
deriving DecidableEq

structure ExifMeta where
  gps_latitude : ℚ × ℚ × ℚ
  gps_latitude_ref : Char
  gps_longitude : ℚ × ℚ × ℚ
  gps_longitude_ref : Char
  gps_altitude : ℚ
  gps_altitude_ref : GpsAltitudeRef
  focal_length : ℚ
deriving DecidableEq

/-- The EXIF fields assigned for one frame (source lines 138-147). -/
def exifDataFor (frame : ImageData) : ExifMeta where
  gps_latitude := decimal_degrees_to_minutes_seconds frame.lat
  gps_latitude_ref := if frame.lat > 0 then 'N' else 'S'
  gps_longitude := decimal_degrees_to_minutes_seconds frame.long
  gps_longitude_ref := if frame.long > 0 then 'E' else 'W'
  gps_altitude := |frame.abs_alt|
  gps_altitude_ref := if frame.abs_alt > 0 then .aboveSeaLevel else .belowSeaLevel
  focal_length := frame.focal_len

/-! ## the `__main__` dispatch (source lines 172-180) -/

def DEFAULT_INC_SECONDS : ℤ := 1

inductive CliAction where
  | run (srt mp4 : String) (incSeconds : ℤ)
  | usage
  | valueError
deriving DecidableEq

/-- Argument dispatch of the `if __name__ == '__main__'` block: `sys.argv`
includes the program name; with three user arguments the third is passed
through `int(...)`, whose failure raises `ValueError`. -/
def cliMain (argv : List String) : CliAction :=
  match argv with
  | [_, srt, mp4] => .run srt mp4 DEFAULT_INC_SECONDS
  | [_, srt, mp4, incStr] =>
      match pyIntOfString incStr with
      | some n => .run srt mp4 n
      | none => .valueError
  | _ => .usage

/-! ## Block-structured logs

`SrtBlock` is one 6-physical-line telemetry block as described by the spec:
frame ordinal, time range, frame-count marker, date/time, attribute line,
blank separator.  Only the attribute line is ever parsed; the other five
lines are skipped unread. -/

structure SrtBlock where
  line1 : String
  line2 : String
  line3 : String
  line4 : String
  attrLine : String
  line6 : String
deriving DecidableEq

def SrtBlock.toLines (b : SrtBlock) : List String :=
  [b.line1, b.line2, b.line3, b.line4, b.attrLine, b.line6]

def joinBlocks (bs : List SrtBlock) : List String :=
  (bs.map SrtBlock.toLines).flatten

/-- The lines still unread once `get_meta_info` has performed its four
initial `readline()` calls on a log made of blocks. -/
def streamOf (bs : List SrtBlock) : List String :=
  (joinBlocks bs).drop 4

/-- Reference reading of the reader, one block at a time: the spec's view
of the loop, connected to `getMetaLoop` by `getMetaLoop_eq_specLoop`. -/
def specLoop (inc : ℤ) : List SrtBlock → ℕ → Except PyError (List ImageData)
  | [], _ => .ok []
  | b :: bs, count => do
      let s ← blockStep inc count (read_line_attributes b.attrLine)
      let r ← specLoop inc bs (count + 1)
      .ok (s ++ r)

/-- The four attribute lookups of a block, in source order. -/
def blockData (b : SrtBlock) : Except PyError (ℚ × ℚ × ℚ × ℚ) := do
  let la ← lookupFloat (read_line_attributes b.attrLine) "latitude"
  let lo ← lookupFloat (read_line_attributes b.attrLine) "longitude"
  let al ← lookupFloat (read_line_attributes b.attrLine) "abs_alt"
  let fo ← lookupFloat (read_line_attributes b.attrLine) "focal_len"
  pure (la, lo, al, fo)

/-- Declarative description of the output, following the spec's words: one
`GeoSample` exactly for each block whose zero-based counter is divisible by
the increment and whose GPS pair is not the `(0.0, 0.0)` sentinel, in block
order. -/
def specSamplesFrom (inc : ℤ) : ℕ → List SrtBlock → List ImageData
  | _, [] => []
  | count, b :: bs =>
      (match blockData b with
       | .ok (la, lo, al, fo) =>
           if (count : ℤ) % inc = 0 ∧ ¬(la = 0 ∧ lo = 0) then [⟨la, lo, al, fo, count⟩]
           else []
       | .error _ => []) ++ specSamplesFrom inc (count + 1) bs

/-- The attribute lookups that `blockStep` actually performs on a block at
counter `n` all succeed: nothing is required of a block skipped by the
increment filter, and `abs_alt`/`focal_len` are required only when the GPS
sentinel check passes. -/
def LooksUpOk (inc : ℤ) (n : ℕ) (b : SrtBlock) : Prop :=
  (n : ℤ) % inc = 0 →
    ∃ la lo, lookupFloat (read_line_attributes b.attrLine) "latitude" = .ok la ∧
      lookupFloat (read_line_attributes b.attrLine) "longitude" = .ok lo ∧
      (¬(la = 0 ∧ lo = 0) →
        ∃ al fo, lookupFloat (read_line_attributes b.attrLine) "abs_alt" = .ok al ∧
          lookupFloat (read_line_attributes b.attrLine) "focal_len" = .ok fo)

/-! ## Basic lemmas -/

theorem pure_eq_ok {α : Type} (a : α) : (pure a : Except PyError α) = .ok a := rfl

theorem ok_bind {α β : Type} (a : α) (f : α → Except PyError β) :
    (Except.ok a >>= f) = f a := rfl

theorem error_bind {α β : Type} (e : PyError) (f : α → Except PyError β) :
    ((Except.error e : Except PyError α) >>= f) = .error e := rfl

theorem joinBlocks_cons (b : SrtBlock) (bs : List SrtBlock) :
    joinBlocks (b :: bs) =
      b.line1 :: b.line2 :: b.line3 :: b.line4 :: b.attrLine :: b.line6 :: joinBlocks bs := by
  simp [joinBlocks, SrtBlock.toLines]

theorem streamOf_cons (b : SrtBlock) (bs : List SrtBlock) :
    streamOf (b :: bs) = b.attrLine :: b.line6 :: joinBlocks bs := by
  simp [streamOf, joinBlocks_cons]

/-- The reader on a block-structured log coincides with the block-at-a-time
reference loop. -/
theorem getMetaLoop_eq_specLoop (inc : ℤ) :
    ∀ (bs : List SrtBlock) (count : ℕ),
      getMetaLoop inc (streamOf bs) count = specLoop inc bs count := by
  intro bs
  induction bs with
  | nil => intro count; rfl
  | cons b bs ih =>
      intro count
      match bs with
      | [] =>
          rw [streamOf_cons]
          show getMetaLoop inc [b.attrLine, b.line6] count = _
          simp only [getMetaLoop, specLoop]
          cases blockStep inc count (read_line_attributes b.attrLine) with
          | error e => rfl
          | ok s => simp [ok_bind, specLoop]
      | b2 :: bs2 =>
          rw [streamOf_cons, joinBlocks_cons]
          show getMetaLoop inc
            (b.attrLine :: b.line6 :: b2.line1 :: b2.line2 :: b2.line3 :: b2.line4 ::
              (b2.attrLine :: b2.line6 :: joinBlocks bs2)) count = _
          have hrest : b2.attrLine :: b2.line6 :: joinBlocks bs2 = streamOf (b2 :: bs2) :=
            (streamOf_cons b2 bs2).symm
          simp only [getMetaLoop, specLoop, hrest, ih (count + 1)]

/-! ## Behaviour of one block step -/

theorem blockStep_not_div {inc : ℤ} {count : ℕ} (attrs : List (String × String))
    (hinc : inc ≠ 0) (h : (count : ℤ) % inc ≠ 0) :
    blockStep inc count attrs = .ok [] := by
  simp [blockStep, hinc, h, pure_eq_ok]

theorem blockStep_err_lat {inc : ℤ} {count : ℕ} {attrs : List (String × String)} {e : PyError}
    (hinc : inc ≠ 0) (hdiv : (count : ℤ) % inc = 0)
    (hla : lookupFloat attrs "latitude" = .error e) :
    blockStep inc count attrs = .error e := by
  simp [blockStep, hinc, hdiv, hla, error_bind]

theorem blockStep_err_long {inc : ℤ} {count : ℕ} {attrs : List (String × String)}
    {la : ℚ} {e : PyError}
    (hinc : inc ≠ 0) (hdiv : (count : ℤ) % inc = 0)
    (hla : lookupFloat attrs "latitude" = .ok la)
    (hlo : lookupFloat attrs "longitude" = .error e) :
    blockStep inc count attrs = .error e := by
  by_cases h0 : la = 0 <;>
    simp [blockStep, hinc, hdiv, hla, hlo, h0, ok_bind, error_bind]

theorem blockStep_sentinel {inc : ℤ} {count : ℕ} {attrs : List (String × String)}
    (hinc : inc ≠ 0) (hdiv : (count : ℤ) % inc = 0)
    (hla : lookupFloat attrs "latitude" = .ok 0)
    (hlo : lookupFloat attrs "longitude" = .ok 0) :
    blockStep inc count attrs = .ok [] := by
  simp [blockStep, hinc, hdiv, hla, hlo, ok_bind, pure_eq_ok]

theorem blockStep_err_alt {inc : ℤ} {count : ℕ} {attrs : List (String × String)}
    {la lo : ℚ} {e : PyError}
    (hinc : inc ≠ 0) (hdiv : (count : ℤ) % inc = 0)
    (hla : lookupFloat attrs "latitude" = .ok la)
    (hlo : lookupFloat attrs "longitude" = .ok lo)
    (hns : ¬(la = 0 ∧ lo = 0))
    (hal : lookupFloat attrs "abs_alt" = .error e) :
    blockStep inc count attrs = .error e := by
  by_cases h0 : la = 0
  · have hlo0 : lo ≠ 0 := fun hc => hns ⟨h0, hc⟩
    simp [blockStep, hinc, hdiv, hla, hlo, hal, h0, hlo0, ok_bind, error_bind]
  · simp [blockStep, hinc, hdiv, hla, hlo, hal, h0, ok_bind, error_bind]

theorem blockStep_err_foc {inc : ℤ} {count : ℕ} {attrs : List (String × String)}
    {la lo al : ℚ} {e : PyError}
    (hinc : inc ≠ 0) (hdiv : (count : ℤ) % inc = 0)
    (hla : lookupFloat attrs "latitude" = .ok la)
    (hlo : lookupFloat attrs "longitude" = .ok lo)
    (hns : ¬(la = 0 ∧ lo = 0))
    (hal : lookupFloat attrs "abs_alt" = .ok al)
    (hfo : lookupFloat attrs "focal_len" = .error e) :
    blockStep inc count attrs = .error e := by
  by_cases h0 : la = 0
  · have hlo0 : lo ≠ 0 := fun hc => hns ⟨h0, hc⟩
    simp [blockStep, hinc, hdiv, hla, hlo, hal, hfo, h0, hlo0, ok_bind, error_bind]
  · simp [blockStep, hinc, hdiv, hla, hlo, hal, hfo, h0, ok_bind, error_bind]

theorem blockStep_emit {inc : ℤ} {count : ℕ} {attrs : List (String × String)}
    {la lo al fo : ℚ}
    (hinc : inc ≠ 0) (hdiv : (count : ℤ) % inc = 0)
    (hla : lookupFloat attrs "latitude" = .ok la)
    (hlo : lookupFloat attrs "longitude" = .ok lo)
    (hns : ¬(la = 0 ∧ lo = 0))
    (hal : lookupFloat attrs "abs_alt" = .ok al)
    (hfo : lookupFloat attrs "focal_len" = .ok fo) :
    blockStep inc count attrs = .ok [⟨la, lo, al, fo, count⟩] := by
  by_cases h0 : la = 0
  · have hlo0 : lo ≠ 0 := fun hc => hns ⟨h0, hc⟩
    simp [blockStep, hinc, hdiv, hla, hlo, hal, hfo, h0, hlo0, ok_bind]
  · simp [blockStep, hinc, hdiv, hla, hlo, hal, hfo, h0, ok_bind]

/-- Whatever the attribute line contains, a sample produced by one step
never carries the `(0.0, 0.0)` sentinel pair. -/
theorem blockStep_ok_no_sentinel {inc : ℤ} {count : ℕ} {attrs : List (String × String)}
    {l : List ImageData} (h : blockStep inc count attrs = .ok l) :
    ∀ s ∈ l, ¬(s.lat = 0 ∧ s.long = 0) := by
  by_cases hinc : inc = 0
  · simp [blockStep, hinc] at h
  by_cases hdiv : (count : ℤ) % inc = 0
  · cases hla : lookupFloat attrs "latitude" with
    | error e => rw [blockStep_err_lat hinc hdiv hla] at h; cases h
    | ok la =>
        cases hlo : lookupFloat attrs "longitude" with
        | error e => rw [blockStep_err_long hinc hdiv hla hlo] at h; cases h
        | ok lo =>
            by_cases hns : la = 0 ∧ lo = 0
            · obtain ⟨h1, h2⟩ := hns
              subst h1; subst h2
              rw [blockStep_sentinel hinc hdiv hla hlo] at h
              cases h
              simp
            · cases hal : lookupFloat attrs "abs_alt" with
              | error e => rw [blockStep_err_alt hinc hdiv hla hlo hns hal] at h; cases h
              | ok al =>
                  cases hfo : lookupFloat attrs "focal_len" with
                  | error e => rw [blockStep_err_foc hinc hdiv hla hlo hns hal hfo] at h; cases h
                  | ok fo =>
                      rw [blockStep_emit hinc hdiv hla hlo hns hal hfo] at h
                      cases h
                      intro s hs
                      simp at hs
                      subst hs
                      exact hns
  · rw [blockStep_not_div attrs hinc hdiv] at h
    cases h
    simp

/-- Composing the four single-lookup equations into `blockData`. -/
theorem blockData_ok_parts {b : SrtBlock} {la lo al fo : ℚ}
    (h : blockData b = .ok (la, lo, al, fo)) :
    lookupFloat (read_line_attributes b.attrLine) "latitude" = .ok la ∧
    lookupFloat (read_line_attributes b.attrLine) "longitude" = .ok lo ∧
    lookupFloat (read_line_attributes b.attrLine) "abs_alt" = .ok al ∧
    lookupFloat (read_line_attributes b.attrLine) "focal_len" = .ok fo := by
  cases h1 : lookupFloat (read_line_attributes b.attrLine) "latitude" with
  | error e => simp [blockData, h1, error_bind] at h
  | ok x1 =>
      cases h2 : lookupFloat (read_line_attributes b.attrLine) "longitude" with
      | error e => simp [blockData, h1, h2, ok_bind, error_bind] at h
      | ok x2 =>
          cases h3 : lookupFloat (read_line_attributes b.attrLine) "abs_alt" with
          | error e => simp [blockData, h1, h2, h3, ok_bind, error_bind] at h
          | ok x3 =>
              cases h4 : lookupFloat (read_line_attributes b.attrLine) "focal_len" with
              | error e => simp [blockData, h1, h2, h3, h4, ok_bind, error_bind] at h
              | ok x4 =>
                  simp [blockData, h1, h2, h3, h4, ok_bind, pure_eq_ok] at h
                  obtain ⟨e1, e2, e3, e4⟩ := h
                  refine ⟨?_, ?_, ?_, ?_⟩ <;> simp_all

/-! ## Loop-level lemmas -/

theorem specLoop_append (inc : ℤ) :
    ∀ (bs1 bs2 : List SrtBlock) (count : ℕ),
      specLoop inc (bs1 ++ bs2) count =
        (do
          let l ← specLoop inc bs1 count
          let r ← specLoop inc bs2 (count + bs1.length)
          Except.ok (l ++ r)) := by
  intro bs1
  induction bs1 with
  | nil =>
      intro bs2 count
      simp only [List.nil_append, specLoop, List.length_nil, Nat.add_zero]
      cases h : specLoop inc bs2 count <;> simp [h, ok_bind, error_bind]
  | cons b bs1 ih =>
      intro bs2 count
      simp only [List.cons_append, specLoop]
      cases hs : blockStep inc count (read_line_attributes b.attrLine) with
      | error e => simp [error_bind]
      | ok s =>
          simp only [ok_bind, List.append_eq]
          rw [ih bs2 (count + 1)]
          cases h1 : specLoop inc bs1 (count + 1) with
          | error e => simp [error_bind, ok_bind]
          | ok l =>
              simp only [ok_bind]
              have hlen : count + 1 + bs1.length = count + (b :: bs1).length := by
                simp [List.length_cons]
                omega
              rw [hlen]
              cases h2 : specLoop inc bs2 (count + (b :: bs1).length) with
              | error e => simp [error_bind, ok_bind]
              | ok r => simp [ok_bind, List.append_assoc]

/-- As long as every lookup that the reader actually performs succeeds, the
block-at-a-time loop succeeds and returns exactly the declaratively
described samples. -/
theorem specLoop_ok (inc : ℤ) (hinc : inc ≠ 0) :
    ∀ (bs : List SrtBlock) (count : ℕ),
      (∀ (k : ℕ) (b : SrtBlock), bs[k]? = some b → LooksUpOk inc (count + k) b) →
      specLoop inc bs count = .ok (specSamplesFrom inc count bs) := by
  intro bs
  induction bs with
  | nil => intro count _; rfl
  | cons b bs ih =>
      intro count h
      have hb : LooksUpOk inc count b := by
        have := h 0 b (by simp)
        rwa [Nat.add_zero] at this
      have hrest : ∀ (k : ℕ) (b2 : SrtBlock), bs[k]? = some b2 →
          LooksUpOk inc (count + 1 + k) b2 := by
        intro k b2 hk
        have := h (k + 1) b2 (by simpa using hk)
        rwa [show count + (k + 1) = count + 1 + k by omega] at this
      by_cases hdiv : (count : ℤ) % inc = 0
      · obtain ⟨la, lo, hla, hlo, hmore⟩ := hb hdiv
        by_cases hs : la = 0 ∧ lo = 0
        · obtain ⟨h1, h2⟩ := hs
          subst h1; subst h2
          have hstep := blockStep_sentinel hinc hdiv hla hlo
          simp only [specLoop, hstep, ok_bind, ih (count + 1) hrest]
          cases hbd : blockData b with
          | error e => simp [specSamplesFrom, hbd, ok_bind]
          | ok q =>
              obtain ⟨la2, lo2, al2, fo2⟩ := q
              obtain ⟨p1, p2, _, _⟩ := blockData_ok_parts hbd
              rw [hla] at p1
              rw [hlo] at p2
              cases p1; cases p2
              simp [specSamplesFrom, hbd, ok_bind]
        · obtain ⟨al, fo, hal, hfo⟩ := hmore hs
          have hstep := blockStep_emit hinc hdiv hla hlo hs hal hfo
          have hbd : blockData b = .ok (la, lo, al, fo) := by
            simp [blockData, hla, hlo, hal, hfo, ok_bind, pure_eq_ok]
          simp only [specLoop, hstep, ok_bind, ih (count + 1) hrest]
          simp [specSamplesFrom, hbd, hdiv, hs, ok_bind]
      · have hstep := blockStep_not_div (read_line_attributes b.attrLine) hinc hdiv
        simp only [specLoop, hstep, ok_bind, ih (count + 1) hrest]
        cases hbd : blockData b with
        | error e => simp [specSamplesFrom, hbd, ok_bind]
        | ok q =>
            obtain ⟨la2, lo2, al2, fo2⟩ := q
            simp [specSamplesFrom, hbd, hdiv, ok_bind]

/-- Every declared sample of a tail starting at `count` has frame index at
least `count`. -/
theorem specSamplesFrom_frame_ge (inc : ℤ) :
    ∀ (count : ℕ) (bs : List SrtBlock) (s : ImageData),
      s ∈ specSamplesFrom inc count bs → count ≤ s.frame_num := by
  intro count bs
  induction bs generalizing count with
  | nil => intro s hs; simp [specSamplesFrom] at hs
  | cons b bs ih =>
      intro s hs
      simp only [specSamplesFrom] at hs
      rcases List.mem_append.mp hs with hh | ht
      · split at hh
        · split at hh
          · simp at hh
            subst hh
            exact le_refl _
          · simp at hh
        · simp at hh
      · have := ih (count + 1) s ht
        omega

/-- The declaratively described samples are in strictly ascending frame
order. -/
theorem specSamplesFrom_sorted (inc : ℤ) :
    ∀ (count : ℕ) (bs : List SrtBlock),
      List.Pairwise (fun a b => a.frame_num < b.frame_num) (specSamplesFrom inc count bs) := by
  intro count bs
  induction bs generalizing count with
  | nil => simp [specSamplesFrom]
  | cons b bs ih =>
      simp only [specSamplesFrom]
      refine List.pairwise_append.mpr ⟨?_, ih (count + 1), ?_⟩
      · split
        · split
          · simp
          · simp
        · simp
      · intro a ha s hs
        have h2 := specSamplesFrom_frame_ge inc (count + 1) bs s hs
        split at ha
        · split at ha
          · simp at ha
            subst ha
            exact h2
          · simp at ha
        · simp at ha

/-- On an arbitrary line list, a successful run of the reader loop never
emits a sentinel sample. -/
theorem getMetaLoop_no_sentinel (inc : ℤ) :
    ∀ (n : ℕ) (lines : List String) (count : ℕ) (r : List ImageData),
      lines.length ≤ n →
      getMetaLoop inc lines count = .ok r →
      ∀ s ∈ r, ¬(s.lat = 0 ∧ s.long = 0) := by
  intro n
  induction n with
  | zero =>
      intro lines count r hlen h
      have hnil : lines = [] := List.eq_nil_of_length_eq_zero (Nat.le_zero.mp hlen)
      subst hnil
      cases h
      simp
  | succ n ih =>
      intro lines count r hlen h
      match lines with
      | [] =>
          cases h
          simp
      | [l1] =>
          simp only [getMetaLoop] at h
          cases hs : blockStep inc count (read_line_attributes l1) <;> rw [hs] at h
          · cases h
          · rw [ok_bind] at h
            cases h
            exact blockStep_ok_no_sentinel hs
      | [l1, l2] =>
          simp only [getMetaLoop] at h
          cases hs : blockStep inc count (read_line_attributes l1) <;> rw [hs] at h
          · cases h
          · rw [ok_bind] at h
            cases h
            exact blockStep_ok_no_sentinel hs
      | [l1, l2, l3] =>
          simp only [getMetaLoop] at h
          cases hs : blockStep inc count (read_line_attributes l1) <;> rw [hs] at h
          · cases h
          · rw [ok_bind] at h
            cases h
            exact blockStep_ok_no_sentinel hs
      | [l1, l2, l3, l4] =>
          simp only [getMetaLoop] at h
          cases hs : blockStep inc count (read_line_attributes l1) <;> rw [hs] at h
          · cases h
          · rw [ok_bind] at h
            cases h
            exact blockStep_ok_no_sentinel hs
      | [l1, l2, l3, l4, l5] =>
          simp only [getMetaLoop] at h
          cases hs : blockStep inc count (read_line_attributes l1) <;> rw [hs] at h
          · cases h
          · rw [ok_bind] at h
            cases h
            exact blockStep_ok_no_sentinel hs
      | l1 :: l2 :: l3 :: l4 :: l5 :: l6 :: rest =>
          simp only [getMetaLoop] at h
          cases hs : blockStep inc count (read_line_attributes l1) <;> rw [hs] at h
          · cases h
          · rw [ok_bind] at h
            cases hr : getMetaLoop inc rest (count + 1) <;> rw [hr] at h
            · cases h
            · rw [ok_bind] at h
              cases h
              intro s hsm
              rcases List.mem_append.mp hsm with hsm | hsm
              · exact blockStep_ok_no_sentinel hs s hsm
              · have hrl : rest.length ≤ n := by
                  simp [List.length_cons] at hlen
                  omega
                exact ih rest (count + 1) _ hrl hr s hsm

/-! ## Claim C4 -/

/-- C4: for every decimal-degree input `d`, the geodetic converter returns
`(deg, min, sec)` with `deg*3600 + min*60 + sec = |d|*3600`,
`0 ≤ min < 60`, `0 ≤ sec < 60` and `deg ≥ 0`; the function is total, with
`d = 0` included in the quantification. -/
theorem c4_dms_decomposition (d : ℚ) :
    (decimal_degrees_to_minutes_seconds d).1 * 3600 +
        (decimal_degrees_to_minutes_seconds d).2.1 * 60 +
        (decimal_degrees_to_minutes_seconds d).2.2 = |d| * 3600 ∧
      0 ≤ (decimal_degrees_to_minutes_seconds d).2.1 ∧
      (decimal_degrees_to_minutes_seconds d).2.1 < 60 ∧
      0 ≤ (decimal_degrees_to_minutes_seconds d).2.2 ∧
      (decimal_degrees_to_minutes_seconds d).2.2 < 60 ∧
      0 ≤ (decimal_degrees_to_minutes_seconds d).1 := by
  have h60 : (0 : ℚ) < 60 := by norm_num
  simp only [decimal_degrees_to_minutes_seconds, divmodF]
  set t : ℚ := |d| * 3600 with ht
  have h0 : (0 : ℚ) ≤ t := by positivity
  set m : ℤ := ⌊t / 60⌋ with hm
  have hm1 : ((m : ℚ)) * 60 ≤ t := by
    have := (le_div_iff₀ h60).mp (Int.floor_le (t / 60))
    linarith
  have hm2 : t < ((m : ℚ) + 1) * 60 := by
    have := (div_lt_iff₀ h60).mp (Int.lt_floor_add_one (t / 60))
    linarith
  have hmn : (0 : ℚ) ≤ (m : ℚ) := by
    have : (0 : ℤ) ≤ m := Int.floor_nonneg.mpr (by positivity)
    exact_mod_cast this
  set g : ℤ := ⌊(m : ℚ) / 60⌋ with hg
  have hg1 : ((g : ℚ)) * 60 ≤ (m : ℚ) := by
    have := (le_div_iff₀ h60).mp (Int.floor_le ((m : ℚ) / 60))
    linarith
  have hg2 : (m : ℚ) < ((g : ℚ) + 1) * 60 := by
    have := (div_lt_iff₀ h60).mp (Int.lt_floor_add_one ((m : ℚ) / 60))
    linarith
  have hgn : (0 : ℚ) ≤ (g : ℚ) := by
    have : (0 : ℤ) ≤ g := Int.floor_nonneg.mpr (by positivity)
    exact_mod_cast this
  refine ⟨by ring, by linarith, by linarith, by linarith, by linarith, hgn⟩

/-! ## Claim C3 -/

/-- C3 counterexample: for a half-second interval at one frame per second,
the source computes `int(1 * 0.5) = 0`, while the claimed formula
`max(1, floor(seconds * framerate))` gives `1`; in particular the returned
increment is not strictly positive. -/
theorem c3_no_clamp_refuted :
    calculate_frame_increment (1 / 2) 1 = 0 ∧
      max 1 ⌊(1 / 2 : ℚ) * 1⌋ = 1 := by
  constructor
  · have hprod : (1 : ℚ) * (1 / 2) = 1 / 2 := by norm_num
    have : (0 : ℚ) ≤ 1 * (1 / 2) := by norm_num
    rw [calculate_frame_increment, pyInt, if_pos this, hprod]
    rw [show ⌊(1 / 2 : ℚ)⌋ = 0 by norm_num [Int.floor_eq_iff]]
  · rw [show ((1 / 2 : ℚ) * 1) = 1 / 2 by norm_num]
    rw [show ⌊(1 / 2 : ℚ)⌋ = 0 by norm_num [Int.floor_eq_iff]]
    norm_num

/-- C3 amended: for a nonnegative interval and a positive frame rate the
calculator returns `int(framerate * seconds)`, which for a nonnegative
product is `floor(framerate * seconds)` with no clamping to 1, so the
result may be `0`. -/
theorem c3_increment_eq_floor (seconds framerate : ℚ)
    (hs : 0 ≤ seconds) (hf : 0 < framerate) :
    calculate_frame_increment seconds framerate = ⌊framerate * seconds⌋ := by
  rw [calculate_frame_increment, pyInt, if_pos (mul_nonneg hf.le hs)]

theorem c3_increment_witness : calculate_frame_increment 2 30 = 60 := by
  rw [c3_increment_eq_floor 2 30 (by norm_num) (by norm_num)]
  rw [show ((30 : ℚ) * 2) = 60 by norm_num]
  exact_mod_cast Int.floor_intCast 60

/-! ## Claim C9 -/

/-- One loop iteration with `inc_frames = 0` fails at `count % inc_frames`
regardless of the content of the line. -/
theorem getMetaLoop_zero_inc (l : String) (rest : List String) (count : ℕ) :
    getMetaLoop 0 (l :: rest) count = .error .zeroDivisionError := by
  have hz : blockStep 0 count (read_line_attributes l) = .error .zeroDivisionError := by
    simp [blockStep]
  match rest with
  | [] => simp only [getMetaLoop, hz, error_bind]
  | [a] => simp only [getMetaLoop, hz, error_bind]
  | [a, b] => simp only [getMetaLoop, hz, error_bind]
  | [a, b, c] => simp only [getMetaLoop, hz, error_bind]
  | [a, b, c, d] => simp only [getMetaLoop, hz, error_bind]
  | a :: b :: c :: d :: e :: rest2 => simp only [getMetaLoop, hz, error_bind]

/-- C9: with a frame increment of 0, a log holding at least one block after
the 4 skipped header lines makes `get_meta_info` raise `ZeroDivisionError`
at the first block's modulus test, while a log with no block at all returns
the empty sample list — so the zero increment is not rejected up front as a
configuration error before the log is read. -/
theorem c9_zero_increment_division_error (lines : List String) :
    (lines.length ≤ 4 → get_meta_info lines 0 = .ok []) ∧
      (4 < lines.length → get_meta_info lines 0 = .error .zeroDivisionError) := by
  constructor
  · intro h
    rw [get_meta_info, List.drop_eq_nil_of_le h]
    rfl
  · intro h
    rw [get_meta_info]
    obtain ⟨l, rest, hd⟩ : ∃ l rest, lines.drop 4 = l :: rest := by
      cases hld : lines.drop 4 with
      | nil =>
          exfalso
          have := List.length_drop 4 lines
          rw [hld] at this
          simp at this
          omega
      | cons a b => exact ⟨a, b, rfl⟩
    rw [hd]
    exact getMetaLoop_zero_inc l rest 0

theorem c9_zero_increment_witness :
    get_meta_info ["1", "00:00:01,000 --> 00:00:01,033", "FrameCnt: 1",
        "2024-01-01 12:00:00", "[latitude: -33.5] [longitude: 151.2]", ""] 0 =
      .error .zeroDivisionError ∧
    get_meta_info ["1", "00:00:01,000 --> 00:00:01,033", "FrameCnt: 1"] 0 = .ok [] :=
  ⟨(c9_zero_increment_division_error _).2 (by decide),
    (c9_zero_increment_division_error _).1 (by decide)⟩

/-! ## Claim C2 -/

/-- C2: for every telemetry log (any line list) and positive increment, a
successful run never returns a sample whose latitude and longitude are both
zero — the `(0.0, 0.0)` sentinel is filtered regardless of increment
alignment. -/
theorem c2_sentinel_never_emitted (lines : List String) (inc : ℤ) (_hinc : 0 < inc)
    (r : List ImageData) (h : get_meta_info lines inc = .ok r) :
    ∀ s ∈ r, ¬(s.lat = 0 ∧ s.long = 0) :=
  getMetaLoop_no_sentinel inc (lines.drop 4).length (lines.drop 4) 0 r (le_refl _) h

theorem c2_sentinel_witness :
    ¬((⟨1, 2, 3, 4, 0⟩ : ImageData).lat = 0 ∧ (⟨1, 2, 3, 4, 0⟩ : ImageData).long = 0) :=
  c2_sentinel_never_emitted
    ["1", "00:00:01,000 --> 00:00:01,033", "FrameCnt: 1", "2024-01-01 12:00:00",
      "[latitude: 1.0] [longitude: 2.0] [abs_alt: 3.0] [focal_len: 4.0]", ""]
    1 (by norm_num) [⟨1, 2, 3, 4, 0⟩] (by decide) ⟨1, 2, 3, 4, 0⟩ (by decide)

/-! ## Claim C6 -/

/-- C6: hemisphere and altitude references are chosen by a strict
greater-than-zero test on the signed values, with exactly `0.0` mapping to
the negative-side indicator, and the stored GPS altitude is the absolute
value of the signed altitude. -/
theorem c6_reference_boundaries (f : ImageData) :
    (0 < f.lat → (exifDataFor f).gps_latitude_ref = 'N') ∧
      (f.lat ≤ 0 → (exifDataFor f).gps_latitude_ref = 'S') ∧
      (0 < f.long → (exifDataFor f).gps_longitude_ref = 'E') ∧
      (f.long ≤ 0 → (exifDataFor f).gps_longitude_ref = 'W') ∧
      (0 < f.abs_alt → (exifDataFor f).gps_altitude_ref = .aboveSeaLevel) ∧
      (f.abs_alt ≤ 0 → (exifDataFor f).gps_altitude_ref = .belowSeaLevel) ∧
      (exifDataFor f).gps_altitude = |f.abs_alt| := by
  refine ⟨fun h => ?_, fun h => ?_, fun h => ?_, fun h => ?_, fun h => ?_, fun h => ?_, rfl⟩
  · simp [exifDataFor, h]
  · simp [exifDataFor, not_lt.mpr h]
  · simp [exifDataFor, h]
  · simp [exifDataFor, not_lt.mpr h]
  · simp [exifDataFor, h]
  · simp [exifDataFor, not_lt.mpr h]

theorem c6_reference_witness :
    (exifDataFor ⟨45, 0, 0, 24, 7⟩).gps_latitude_ref = 'N' ∧
      (exifDataFor ⟨45, 0, 0, 24, 7⟩).gps_longitude_ref = 'W' ∧
      (exifDataFor ⟨45, 0, 0, 24, 7⟩).gps_altitude_ref = .belowSeaLevel ∧
      (exifDataFor ⟨-1, 0, 0, 24, 8⟩).gps_latitude_ref = 'S' :=
  ⟨(c6_reference_boundaries ⟨45, 0, 0, 24, 7⟩).1 (by norm_num),
    (c6_reference_boundaries ⟨45, 0, 0, 24, 7⟩).2.2.2.1 (le_refl 0),
    (c6_reference_boundaries ⟨45, 0, 0, 24, 7⟩).2.2.2.2.2.1 (le_refl 0),
    (c6_reference_boundaries ⟨-1, 0, 0, 24, 8⟩).2.1 (by norm_num)⟩

/-! ## Claim C7 -/

theorem headD_cons_tail {α : Type} (l : List α) (d : α) (h : l ≠ []) :
    l.headD d :: l.tail = l := by
  cases l with
  | nil => exact absurd rfl h
  | cons a t => rfl

theorem splitChar_ne_nil (sep : Char) (cs : List Char) : splitChar sep cs ≠ [] := by
  cases cs with
  | nil => simp [splitChar]
  | cons c rest =>
      simp only [splitChar]
      by_cases h : c = sep
      · simp [h]
      · simp only [if_neg h]
        cases splitChar sep rest <;> simp

theorem splitChar_not_mem {sep : Char} {cs : List Char} (h : sep ∉ cs) :
    splitChar sep cs = [cs] := by
  induction cs with
  | nil => rfl
  | cons c rest ih =>
      have h1 : ¬c = sep := fun e => h (e ▸ List.mem_cons_self c rest)
      have h2 : sep ∉ rest := fun m => h (List.mem_cons_of_mem _ m)
      simp only [splitChar, if_neg h1, ih h2]

theorem splitChar_append {sep : Char} {p1 : List Char} (rest : List Char) (h : sep ∉ p1) :
    splitChar sep (p1 ++ rest) =
      (p1 ++ (splitChar sep rest).headD []) :: (splitChar sep rest).tail := by
  induction p1 with
  | nil =>
      simp only [List.nil_append]
      exact (headD_cons_tail _ _ (splitChar_ne_nil sep rest)).symm
  | cons c p1 ih =>
      have h1 : ¬c = sep := fun e => h (e ▸ List.mem_cons_self c p1)
      have h2 : sep ∉ p1 := fun m => h (List.mem_cons_of_mem _ m)
      simp only [List.cons_append, splitChar, if_neg h1]
      rw [show p1.append rest = p1 ++ rest from rfl, ih h2]

theorem dropWhile_append_all {p : Char → Bool} {l r : List Char}
    (h : ∀ x ∈ l, p x = true) : (l ++ r).dropWhile p = r.dropWhile p := by
  induction l with
  | nil => rfl
  | cons c l ih =>
      have hc : p c = true := h c (List.mem_cons_self c l)
      simp only [List.cons_append, List.dropWhile_cons, hc, if_true]
      exact ih (fun x hx => h x (List.mem_cons_of_mem _ hx))

/-- C7 counterexample: for a basename holding more than one dot, the source
truncates at the first dot, while stripping `the extension` (in the
`os.path.splitext` sense) would keep everything before the last dot; the
two names differ. -/
theorem c7_multidot_refuted :
    savedName "a/b/clip.backup.mp4" 42 = "./out/clip_42.jpg" ∧
      OUTPUT_DIR ++ stripExtensionSpec "clip.backup.mp4" ++ "_" ++ Nat.repr 42 ++ ".jpg" =
        "./out/clip.backup_42.jpg" ∧
      ("./out/clip_42.jpg" : String) ≠ "./out/clip.backup_42.jpg" :=
  ⟨by decide, by decide, by decide⟩

/-- C7 amended: the exported name is the output-directory prefix, the
video's base filename truncated at its first dot, an underscore, the
decimal frame index and `.jpg`; this agrees with `extension stripped` when
the basename holds at most one dot. -/
theorem c7_first_dot_naming (video_path : String) (n : ℕ) (bn : List Char)
    (hbn : (splitChar '/' video_path.data).getLastD [] = bn)
    (hdots : '.' ∉ bn ∨ ∃ p1 p2, bn = p1 ++ '.' :: p2 ∧ '.' ∉ p1 ∧ '.' ∉ p2) :
    savedName video_path n =
      OUTPUT_DIR ++ stripExtensionSpec (⟨bn⟩ : String) ++ "_" ++ Nat.repr n ++ ".jpg" := by
  rw [savedName, hbn]
  rcases hdots with hno | ⟨p1, p2, hbneq, hp1, hp2⟩
  · rw [splitChar_not_mem hno, stripExtensionSpec,
      if_neg (show '.' ∉ (⟨bn⟩ : String).data from hno)]
    rfl
  · subst hbneq
    have hsp : splitChar '.' ('.' :: p2) = [] :: splitChar '.' p2 := by
      simp [splitChar]
    rw [splitChar_append ('.' :: p2) hp1, hsp]
    have hrev : (p1 ++ '.' :: p2).reverse = p2.reverse ++ '.' :: p1.reverse := by
      simp
    have hmem : '.' ∈ p1 ++ '.' :: p2 :=
      List.mem_append_right _ (List.mem_cons_self _ _)
    have hall : ∀ x ∈ p2.reverse, (x != '.') = true := by
      intro x hx
      have hxne : x ≠ '.' := by
        intro e
        exact hp2 (e ▸ List.mem_reverse.mp hx)
      simpa using hxne
    rw [stripExtensionSpec, if_pos (show '.' ∈ (⟨p1 ++ '.' :: p2⟩ : String).data from hmem)]
    show _ = OUTPUT_DIR ++
      (⟨((((p1 ++ '.' :: p2).reverse.dropWhile (fun c => c != '.')).drop 1).reverse)⟩ : String)
        ++ "_" ++ Nat.repr n ++ ".jpg"
    rw [hrev, dropWhile_append_all hall]
    simp [List.dropWhile_cons]

theorem c7_first_dot_witness :
    savedName "a/b/clip.mp4" 42 = "./out/clip_42.jpg" := by
  rw [c7_first_dot_naming "a/b/clip.mp4" 42 "clip.mp4".data (by decide)
    (Or.inr ⟨"clip".data, "mp4".data, by decide, by decide, by decide⟩)]
  decide

/-! ## Claim C8 -/

/-- C8 counterexample: the fractional interval argument `"0.5"` is not
truncated to an integer — `int("0.5")` raises `ValueError`, so the program
aborts instead of running with interval 0. -/
theorem c8_fractional_interval_refuted :
    cliMain ["process_srt.py", "a.srt", "b.mp4", "0.5"] = .valueError ∧
      CliAction.valueError ≠ CliAction.run "a.srt" "b.mp4" 0 :=
  ⟨by decide, by decide⟩

/-- C8 amended: a supplied interval argument is passed through `int(...)`:
an integer literal is accepted and used, and any other text — including
fractional input such as `"0.5"` — raises `ValueError` rather than being
truncated or preserved. -/
theorem c8_interval_parse (prog srt mp4 incStr : String) :
    (∀ n : ℤ, pyIntOfString incStr = some n →
      cliMain [prog, srt, mp4, incStr] = .run srt mp4 n) ∧
    (pyIntOfString incStr = none → cliMain [prog, srt, mp4, incStr] = .valueError) := by
  constructor
  · intro n hn
    simp [cliMain, hn]
  · intro hn
    simp [cliMain, hn]

theorem c8_interval_witness :
    cliMain ["process_srt.py", "a.srt", "b.mp4", "7"] = .run "a.srt" "b.mp4" 7 :=
  (c8_interval_parse "process_srt.py" "a.srt" "b.mp4" "7").1 7 (by decide)

/-! ## Claim C5 -/

/-- C5 counterexample: a block whose frame counter qualifies (counter 0,
increment 1) reports the `(0.0, 0.0)` sentinel and lacks the required keys
`abs_alt` and `focal_len`, yet the run completes normally with an empty
sample list instead of aborting with a lookup failure. -/
theorem c5_sentinel_block_not_fatal :
    get_meta_info ["1", "00:00:01,000 --> 00:00:01,033", "FrameCnt: 1",
        "2024-01-01 12:00:00", "[latitude: 0.0] [longitude: 0.0]", ""] 1 =
      .ok [] ∧
    dictGet (read_line_attributes "[latitude: 0.0] [longitude: 0.0]") "abs_alt" = none :=
  ⟨by decide, by decide⟩

/-- C5 amended: in a log whose earlier blocks process cleanly, a block at a
counter divisible by the increment aborts the whole run with a `KeyError`
when it lacks `latitude`, when it lacks `longitude`, or — provided its GPS
pair passes the sentinel check — when it lacks `abs_alt` or `focal_len`;
a sentinel block missing only `abs_alt`/`focal_len` is instead skipped. -/
theorem c5_missing_key_aborts (pre : List SrtBlock) (b : SrtBlock) (post : List SrtBlock)
    (inc : ℤ) (l : List ImageData)
    (hinc : 0 < inc)
    (hpre : specLoop inc pre 0 = .ok l)
    (hdiv : ((pre.length : ℕ) : ℤ) % inc = 0) :
    (dictGet (read_line_attributes b.attrLine) "latitude" = none →
      get_meta_info (joinBlocks (pre ++ b :: post)) inc = .error (.keyError "latitude")) ∧
    (∀ la : ℚ, lookupFloat (read_line_attributes b.attrLine) "latitude" = .ok la →
      dictGet (read_line_attributes b.attrLine) "longitude" = none →
      get_meta_info (joinBlocks (pre ++ b :: post)) inc = .error (.keyError "longitude")) ∧
    (∀ la lo : ℚ, lookupFloat (read_line_attributes b.attrLine) "latitude" = .ok la →
      lookupFloat (read_line_attributes b.attrLine) "longitude" = .ok lo →
      ¬(la = 0 ∧ lo = 0) →
      dictGet (read_line_attributes b.attrLine) "abs_alt" = none →
      get_meta_info (joinBlocks (pre ++ b :: post)) inc = .error (.keyError "abs_alt")) ∧
    (∀ la lo al : ℚ, lookupFloat (read_line_attributes b.attrLine) "latitude" = .ok la →
      lookupFloat (read_line_attributes b.attrLine) "longitude" = .ok lo →
      ¬(la = 0 ∧ lo = 0) →
      lookupFloat (read_line_attributes b.attrLine) "abs_alt" = .ok al →
      dictGet (read_line_attributes b.attrLine) "focal_len" = none →
      get_meta_info (joinBlocks (pre ++ b :: post)) inc = .error (.keyError "focal_len")) := by
  have hinc0 : inc ≠ 0 := hinc.ne'
  have hmain : ∀ e : PyError,
      blockStep inc pre.length (read_line_attributes b.attrLine) = .error e →
      get_meta_info (joinBlocks (pre ++ b :: post)) inc = .error e := by
    intro e hstep
    rw [get_meta_info,
      show (joinBlocks (pre ++ b :: post)).drop 4 = streamOf (pre ++ b :: post) from rfl,
      getMetaLoop_eq_specLoop, specLoop_append, hpre, ok_bind]
    simp only [Nat.zero_add, specLoop, hstep, error_bind]
  refine ⟨fun hn => ?_, fun la hla hn => ?_, fun la lo hla hlo hns hn => ?_,
    fun la lo al hla hlo hns hal hn => ?_⟩
  · exact hmain _ (blockStep_err_lat hinc0 hdiv (by simp [lookupFloat, hn]))
  · exact hmain _ (blockStep_err_long hinc0 hdiv hla (by simp [lookupFloat, hn]))
  · exact hmain _ (blockStep_err_alt hinc0 hdiv hla hlo hns (by simp [lookupFloat, hn]))
  · exact hmain _ (blockStep_err_foc hinc0 hdiv hla hlo hns hal (by simp [lookupFloat, hn]))

theorem c5_missing_key_witness :
    get_meta_info (joinBlocks [⟨"1", "00:00:01,000 --> 00:00:01,033", "FrameCnt: 1",
        "2024-01-01 12:00:00", "[latitude: 1.0] [longitude: 2.0]", ""⟩]) 1 =
      .error (.keyError "abs_alt") :=
  (c5_missing_key_aborts [] ⟨"1", "00:00:01,000 --> 00:00:01,033", "FrameCnt: 1",
      "2024-01-01 12:00:00", "[latitude: 1.0] [longitude: 2.0]", ""⟩ [] 1 []
    (by norm_num) rfl (by decide)).2.2.1 1 2 (by decide) (by decide) (by decide) (by decide)

/-! ## Claim C10 -/

/-- C10: the run succeeds as soon as every lookup the reader actually
performs succeeds — `latitude`/`longitude` are consulted only on blocks
whose counter is divisible by the increment, and `abs_alt`/`focal_len` only
when additionally the GPS sentinel check passes; hence an increment-skipped
block may lack every key, and a sentinel block may lack
`abs_alt`/`focal_len`, without aborting the run. -/
theorem c10_lookup_laziness (bs : List SrtBlock) (inc : ℤ) (hinc : 0 < inc)
    (h : ∀ (k : ℕ) (b : SrtBlock), bs[k]? = some b → LooksUpOk inc k b) :
    get_meta_info (joinBlocks bs) inc = .ok (specSamplesFrom inc 0 bs) := by
  rw [get_meta_info, show (joinBlocks bs).drop 4 = streamOf bs from rfl,
    getMetaLoop_eq_specLoop]
  refine specLoop_ok inc hinc.ne' bs 0 ?_
  intro k b hk
  simpa using h k b hk

theorem c10_lookup_laziness_witness :
    get_meta_info (joinBlocks
      [⟨"1", "t1", "c1", "d1", "[latitude: 1.0] [longitude: 2.0] [abs_alt: 3.0] [focal_len: 4.0]", ""⟩,
        ⟨"2", "t2", "c2", "d2", "", ""⟩,
        ⟨"3", "t3", "c3", "d3", "[latitude: 0.0] [longitude: 0.0]", ""⟩]) 2 =
      .ok [⟨1, 2, 3, 4, 0⟩] := by
  have h := c10_lookup_laziness
    [⟨"1", "t1", "c1", "d1", "[latitude: 1.0] [longitude: 2.0] [abs_alt: 3.0] [focal_len: 4.0]", ""⟩,
      ⟨"2", "t2", "c2", "d2", "", ""⟩,
      ⟨"3", "t3", "c3", "d3", "[latitude: 0.0] [longitude: 0.0]", ""⟩] 2
    (by norm_num) ?_
  · rw [h]
    decide
  · intro k b hk
    match k with
    | 0 =>
        simp at hk
        subst hk
        exact fun _ => ⟨1, 2, by decide, by decide, fun _ => ⟨3, 4, by decide, by decide⟩⟩
    | 1 =>
        simp at hk
        subst hk
        exact fun hdiv => absurd hdiv (by decide)
    | 2 =>
        simp at hk
        subst hk
        exact fun _ => ⟨0, 0, by decide, by decide, fun hns => absurd ⟨rfl, rfl⟩ hns⟩
    | (k + 3) => simp at hk

/-! ## Claim C1 -/

/-- C1 counterexample: on a log that literally consists of a 4-line header
followed by one 6-line block whose 5th line is the attribute line, the
reader does not parse that block's attribute line — after skipping the four
header lines it treats the block's first line (the frame ordinal) as the
attribute line, finds no attributes there, and aborts with
`KeyError('latitude')` instead of emitting the block's GeoSample. -/
theorem c1_header_layout_refuted :
    get_meta_info
      ("header line 1" :: "header line 2" :: "header line 3" :: "header line 4" ::
        joinBlocks [⟨"1", "00:00:01,000 --> 00:00:01,033", "FrameCnt: 1",
          "2024-01-01 12:00:00",
          "[latitude: 1.0] [longitude: 2.0] [abs_alt: 3.0] [focal_len: 4.0]", ""⟩]) 1 =
      .error (.keyError "latitude") ∧
    (Except.error (PyError.keyError "latitude") : Except PyError (List ImageData)) ≠
      .ok [⟨1, 2, 3, 4, 0⟩] :=
  ⟨by decide, by decide⟩

/-- C1 amended: the log is the repeating 6-line blocks themselves, with no
separate header — the reader's four skipped lines are the first block's
first four lines.  On such a log whose blocks all carry parseable values
for the four required keys, the reader parses each block's attribute line
and emits one GeoSample exactly for the blocks whose zero-based counter is
divisible by the increment and whose GPS pair is not the `(0.0, 0.0)`
sentinel, in ascending frame_index order. -/
theorem c1_block_stream_characterization (bs : List SrtBlock) (inc : ℤ)
    (hinc : 0 < inc)
    (hgood : ∀ b ∈ bs, ∃ q : ℚ × ℚ × ℚ × ℚ, blockData b = .ok q) :
    get_meta_info (joinBlocks bs) inc = .ok (specSamplesFrom inc 0 bs) ∧
      List.Pairwise (fun a b => a.frame_num < b.frame_num) (specSamplesFrom inc 0 bs) := by
  constructor
  · rw [get_meta_info, show (joinBlocks bs).drop 4 = streamOf bs from rfl,
      getMetaLoop_eq_specLoop]
    refine specLoop_ok inc hinc.ne' bs 0 ?_
    intro k b hk
    obtain ⟨⟨la, lo, al, fo⟩, hq⟩ := hgood b (List.getElem?_mem hk)
    obtain ⟨h1, h2, h3, h4⟩ := blockData_ok_parts hq
    exact fun _ => ⟨la, lo, h1, h2, fun _ => ⟨al, fo, h3, h4⟩⟩
  · exact specSamplesFrom_sorted inc 0 bs

theorem c1_block_stream_witness :
    get_meta_info (joinBlocks
      [⟨"1", "t1", "c1", "d1", "[latitude: 1.0] [longitude: 2.0] [abs_alt: 3.0] [focal_len: 4.0]", ""⟩,
        ⟨"2", "t2", "c2", "d2", "[latitude: 0.0] [longitude: 0.0] [abs_alt: 5.0] [focal_len: 6.0]", ""⟩,
        ⟨"3", "t3", "c3", "d3", "[latitude: -7.0] [longitude: 8.0] [abs_alt: 9.0] [focal_len: 10.0]", ""⟩,
        ⟨"4", "t4", "c4", "d4", "[latitude: 11.0] [longitude: 12.0] [abs_alt: 13.0] [focal_len: 14.0]", ""⟩]) 1 =
      .ok [⟨1, 2, 3, 4, 0⟩, ⟨-7, 8, 9, 10, 2⟩, ⟨11, 12, 13, 14, 3⟩] := by
  have h := c1_block_stream_characterization
    [⟨"1", "t1", "c1", "d1", "[latitude: 1.0] [longitude: 2.0] [abs_alt: 3.0] [focal_len: 4.0]", ""⟩,
      ⟨"2", "t2", "c2", "d2", "[latitude: 0.0] [longitude: 0.0] [abs_alt: 5.0] [focal_len: 6.0]", ""⟩,
      ⟨"3", "t3", "c3", "d3", "[latitude: -7.0] [longitude: 8.0] [abs_alt: 9.0] [focal_len: 10.0]", ""⟩,
      ⟨"4", "t4", "c4", "d4", "[latitude: 11.0] [longitude: 12.0] [abs_alt: 13.0] [focal_len: 14.0]", ""⟩] 1
    (by norm_num) ?_
  · rw [h.1]
    decide
  · intro b hb
    simp at hb
    rcases hb with rfl | rfl | rfl | rfl
    · exact ⟨(1, 2, 3, 4), by decide⟩
    · exact ⟨(0, 0, 5, 6), by decide⟩
    · exact ⟨(-7, 8, 9, 10), by decide⟩
    · exact ⟨(11, 12, 13, 14), by decide⟩

end ProcessSrt
